import Mathlib

/-!
Verification development for the node-escpos printer core
(`src/packages/printer/utils.js`): the helper codecs (`getParityBit`,
`codeLength`, `bytesLength`, `spaceText`) and the stateful command-buffer
builder (`Printer.prototype.barcode`, `qrcode`, `raster`, `image`,
`tableCustom`, `flush`, ...).

Modelling conventions:
* A JavaScript string is modelled as a `List Nat` of UTF-16 code units
  (`Jstr`).  `charAt`, `split('').reverse()`, `.length`, `substring` all
  operate on code units, exactly as in JavaScript.
* JavaScript numbers are modelled as `Int` where the source only ever
  holds integers, and as `ℚ` where fractional values arise
  (`tableCustom`'s cell widths).  This is an exact model of the values the
  source computes except for double-precision rounding, which none of the
  verified properties depend on.
* `Buffer#write` of a string encodes it as UTF-8 (`utf8Encode`), as Node's
  `Buffer.from(string)` does; `Buffer.from(hex, 'hex')` stops at the first
  incomplete or invalid digit pair (`hexPairsDecode`).
* The byte constants of `commands.js` are not part of the sources provided,
  so they are abstract parameters (`Commands`), modelled from the spec.
-/

set_option autoImplicit false

/-- A JavaScript string: a list of UTF-16 code units. -/
abbrev Jstr := List Nat

/-- Embed a Lean string literal (ASCII in all uses here) as a `Jstr`. -/
def strU (s : String) : Jstr := s.data.map Char.toNat

/-- ASCII upper-casing of one UTF-16 unit (`String.prototype.toUpperCase`
restricted to the ASCII tokens the source uses). -/
def upU (c : Nat) : Nat := if 97 ≤ c ∧ c ≤ 122 then c - 32 else c

/-- ASCII lower-casing of one UTF-16 unit. -/
def lowU (c : Nat) : Nat := if 65 ≤ c ∧ c ≤ 90 then c + 32 else c

/-- `s.toUpperCase()` on the ASCII tokens used by the source. -/
def toUpperJ (s : Jstr) : Jstr := s.map upU

/-- `s.toLowerCase()` on the ASCII tokens used by the source. -/
def toLowerJ (s : Jstr) : Jstr := s.map lowU

/-- JavaScript `enc || dflt` for strings: the empty string is falsy. -/
def jstrOr (o : Option Jstr) (dflt : Jstr) : Jstr :=
  match o with
  | some s => if s = [] then dflt else s
  | none => dflt

/-- `parseInt(c, 10)` on a single code unit: a decimal digit parses to its
value, anything else is `NaN` (`none`). -/
def parseIntDigit (c : Nat) : Option Nat :=
  if 48 ≤ c ∧ c ≤ 57 then some (c - 48) else none

/-- The accumulation loop of `getParityBit`, over the reversed code units,
with the counter starting at `i`: each digit is weighted by
`3 ^ ((counter + 1) % 2)`; a non-digit makes the whole sum `NaN` (`none`). -/
def paritySum : Jstr → Nat → Option Nat
  | [], _ => some 0
  | c :: rest, i =>
    match parseIntDigit c, paritySum rest (i + 1) with
    | some d, some s => some (d * 3 ^ ((i + 1) % 2) + s)
    | _, _ => none

/-- `exports.getParityBit` (utils.js lines 5-11): reverse the string, sum
the digits weighted `3 ^ ((counter + 1) % 2)`, and return
`String((10 - (parity % 10)) % 10)`; if any character is not a digit the
JavaScript arithmetic yields `NaN` and `String(NaN)` is `"NaN"`. -/
def getParityBit (s : Jstr) : Jstr :=
  match paritySum s.reverse 0 with
  | some p => [48 + (10 - p % 10) % 10]
  | none => strU "NaN"

/-- One lowercase hexadecimal digit character. -/
def hexDigitU (d : Nat) : Nat := if d < 10 then 48 + d else 87 + d

/-- `(n).toString(16)` (lowercase hexadecimal, `"0"` for zero). -/
def natToHexStr (n : Nat) : Jstr := (Nat.toDigits 16 n).map Char.toNat

/-- Numeric value of a hexadecimal digit code unit, if it is one
(Node's hex decoder accepts both cases). -/
def hexVal (c : Nat) : Option Nat :=
  if 48 ≤ c ∧ c ≤ 57 then some (c - 48)
  else if 97 ≤ c ∧ c ≤ 102 then some (c - 87)
  else if 65 ≤ c ∧ c ≤ 70 then some (c - 55)
  else none

/-- `Buffer.from(str, 'hex')`: decode complete pairs of hex digits,
stopping at the first invalid character or incomplete trailing pair. -/
def hexPairsDecode : Jstr → List Nat
  | c1 :: c2 :: rest =>
    match hexVal c1, hexVal c2 with
    | some h, some l => (16 * h + l) :: hexPairsDecode rest
    | _, _ => []
  | _ => []

/-- Recursion core of `utf8Encode`.  The fuel is structurally decreasing;
every step consumes at least one code unit, so starting with
`fuel = length` the fuel never runs out and the result is exact. -/
def utf8EncodeAux : Nat → List Nat → List Nat
  | 0, _ => []
  | _, [] => []
  | f + 1, u :: rest =>
    if u ≤ 0x7F then
      u :: utf8EncodeAux f rest
    else if u ≤ 0x7FF then
      (0xC0 + u / 64) :: (0x80 + u % 64) :: utf8EncodeAux f rest
    else if u < 0xD800 ∨ 0xDFFF < u then
      (0xE0 + u / 4096) :: (0x80 + u / 64 % 64) :: (0x80 + u % 64) ::
        utf8EncodeAux f rest
    else if u ≤ 0xDBFF then
      match rest with
      | v :: rest2 =>
        if 0xDC00 ≤ v ∧ v ≤ 0xDFFF then
          let cp := 0x10000 + (u - 0xD800) * 1024 + (v - 0xDC00)
          (0xF0 + cp / 262144) :: (0x80 + cp / 4096 % 64) ::
            (0x80 + cp / 64 % 64) :: (0x80 + cp % 64) :: utf8EncodeAux f rest2
        else
          0xEF :: 0xBF :: 0xBD :: utf8EncodeAux f (v :: rest2)
      | [] => [0xEF, 0xBF, 0xBD]
    else
      0xEF :: 0xBF :: 0xBD :: utf8EncodeAux f rest

/-- UTF-8 encoding of a list of UTF-16 code units, as performed by Node's
`Buffer.from(string)`: well-formed surrogate pairs become one 4-byte
sequence, lone surrogates become the replacement character
`EF BF BD`. -/
def utf8Encode (s : List Nat) : List Nat := utf8EncodeAux s.length s

/-- Recursion core of `utf8Decode` (fuel-based for the same reason as
`utf8EncodeAux`). -/
def utf8DecodeAux : Nat → List Nat → List Nat
  | 0, _ => []
  | _, [] => []
  | f + 1, b :: rest =>
    if b ≤ 0x7F then b :: utf8DecodeAux f rest
    else if 0xC0 ≤ b ∧ b ≤ 0xDF then
      match rest with
      | b2 :: r2 =>
        if 0x80 ≤ b2 ∧ b2 ≤ 0xBF then
          ((b - 0xC0) * 64 + (b2 - 0x80)) :: utf8DecodeAux f r2
        else 0xFFFD :: utf8DecodeAux f (b2 :: r2)
      | [] => [0xFFFD]
    else if 0xE0 ≤ b ∧ b ≤ 0xEF then
      match rest with
      | b2 :: b3 :: r3 =>
        if (0x80 ≤ b2 ∧ b2 ≤ 0xBF) ∧ (0x80 ≤ b3 ∧ b3 ≤ 0xBF) then
          ((b - 0xE0) * 4096 + (b2 - 0x80) * 64 + (b3 - 0x80)) ::
            utf8DecodeAux f r3
        else 0xFFFD :: utf8DecodeAux f (b2 :: b3 :: r3)
      | _ => [0xFFFD]
    else if 0xF0 ≤ b ∧ b ≤ 0xF4 then
      match rest with
      | b2 :: b3 :: b4 :: r4 =>
        if (0x80 ≤ b2 ∧ b2 ≤ 0xBF) ∧ (0x80 ≤ b3 ∧ b3 ≤ 0xBF) ∧
            (0x80 ≤ b4 ∧ b4 ≤ 0xBF) then
          let cp := (b - 0xF0) * 262144 + (b2 - 0x80) * 4096 +
            (b3 - 0x80) * 64 + (b4 - 0x80)
          (0xD800 + (cp - 0x10000) / 1024) ::
            (0xDC00 + (cp - 0x10000) % 1024) :: utf8DecodeAux f r4
        else 0xFFFD :: utf8DecodeAux f (b2 :: b3 :: b4 :: r4)
      | _ => [0xFFFD]
    else 0xFFFD :: utf8DecodeAux f rest

/-- UTF-8 decoding of a byte list back to UTF-16 code units, as performed
by `buffer.toString()`: valid 1-3 byte sequences decode to one unit, valid
4-byte sequences to a surrogate pair, and malformed bytes to the
replacement character `0xFFFD`.  (The claims below only depend on the
empty and the all-ASCII cases.) -/
def utf8Decode (bs : List Nat) : List Nat := utf8DecodeAux bs.length bs

/-- `exports.codeLength` (utils.js lines 13-16):
`Buffer.from((str.length).toString(16), 'hex').toString()`.  Only the
length of the input string matters, so the model takes the length. -/
def codeLengthStr (len : Nat) : Jstr :=
  utf8Decode (hexPairsDecode (natToHexStr len))

/-- The body of `bytesLength` (utils.js lines 18-30): each code unit in the
single-byte range `\u0000`-`ÿ` counts 1, every other unit counts 2. -/
def bytesLength : Jstr → Nat
  | [] => 0
  | c :: rest => (if c ≤ 0xFF then 1 else 2) + bytesLength rest

/-- `exports.spaceText` (utils.js lines 34-46): pad `text1` with
`width - bytesLength(text1) - bytesLength(text2)` spaces (none when that
count is zero or negative) and append `text2`. -/
def spaceText (text1 text2 : Jstr) (width : Int) : Jstr :=
  let space : Int := width - (bytesLength text1 : Int) - (bytesLength text2 : Int)
  text1 ++ List.replicate space.toNat 32 ++ text2

/-! ## The command-buffer builder (`Printer.prototype`) -/

/-- Printer session state: `this.encoding` (default `'GB18030'`),
`this.width` (default 48; rational because `tableCustom` divides it), and
`this._model` (`null` or `'qsprinter'`). -/
structure Session where
  encoding : Jstr
  width : ℚ
  model : Option Jstr

/-- `this._model === 'qsprinter'`. -/
def isQs (sess : Session) : Bool := sess.model == some (strU "qsprinter")

/-- Error kinds: the `InvalidArgument` kind covers the synchronous
validation errors the source throws (`Error`/`TypeError` on a malformed
barcode payload, out-of-range QR payload, or a non-`Image` argument);
`rangeError` models Node's `Buffer` write-range exceptions. -/
inductive JsErr where
  | invalidArgument
  | rangeError
deriving DecidableEq

/-- One call the builder makes against its `MutableBuffer`: a plain byte
write, `writeUInt8`, `writeUInt16LE` (integer or possibly-fractional
value), or a thrown validation error. -/
inductive Step where
  | bytes (bs : List Nat)
  | u8 (n : Int)
  | u16 (n : Int)
  | u16q (q : ℚ)
  | fail (e : JsErr)

/-- Effect of one step: the bytes it appends, or the error it throws
(`writeUInt8`/`writeUInt16LE` throw on out-of-range or non-integer
values). -/
def stepOut : Step → List Nat ⊕ JsErr
  | .bytes bs => .inl bs
  | .u8 n => if 0 ≤ n ∧ n ≤ 255 then .inl [n.toNat] else .inr .rangeError
  | .u16 n =>
      if 0 ≤ n ∧ n ≤ 65535 then .inl [n.toNat % 256, n.toNat / 256]
      else .inr .rangeError
  | .u16q q =>
      if q.den = 1 ∧ 0 ≤ q.num ∧ q.num ≤ 65535 then
        .inl [q.num.toNat % 256, q.num.toNat / 256]
      else .inr .rangeError
  | .fail e => .inr e

/-- Run a list of steps in order: concatenate the bytes of the successful
prefix; a thrown error aborts the rest. -/
def runSteps : List Step → List Nat × Option JsErr
  | [] => ([], none)
  | s :: rest =>
    match stepOut s with
    | .inl bs => let r := runSteps rest; (bs ++ r.1, r.2)
    | .inr e => ([], some e)

/-- Modelled from the spec: the byte-constant tables of `commands.js`
(which is not among the provided sources — only `utils.js` is).  Every
table lookup (`BARCODE_FORMAT`, `CODE2D_FORMAT`, `MODEL.QSPRINTER`,
`BITMAP_FORMAT`, `GSV0_FORMAT`, `LINE_SPACING`) and numeric constant
(`PIXEL_SIZE`/`VERSION` bounds, `LEN_OFFSET`) is an abstract parameter;
the spec states only their roles, not their byte values. -/
structure Commands where
  eol : Jstr
  barcodeWidth : Int → List Nat
  barcodeWidthDefault : List Nat
  barcodeHeight : Int → List Nat
  barcodeHeightDefault : List Nat
  qsBarcodeHeightDefault : List Nat
  barcodeFont : Jstr → List Nat
  barcodeTxt : Jstr → List Nat
  barcodeSym : Jstr → List Nat
  qsBarcodeModeOn : List Nat
  qsBarcodeModeOff : List Nat
  typeQR : List Nat
  code2d : List Nat
  qrLevel : Jstr → List Nat
  qrLevelLName : Jstr
  qsPixelCmd : List Nat
  qsPixelMin : Int
  qsPixelMax : Int
  qsPixelDefault : Int
  qsVersionCmd : List Nat
  qsVersionMin : Int
  qsVersionMax : Int
  qsVersionDefault : Int
  qsLevelCmd : List Nat
  qsLevelOptions : Jstr → List Nat
  qsSavebufP1 : List Nat
  qsSavebufP2 : List Nat
  qsPrintbufP1 : List Nat
  qsPrintbufP2 : List Nat
  lenOffset : Nat
  bitmapHeader : Jstr → List Nat
  gsv0Header : Jstr → List Nat
  lsDefault : List Nat
  lsSet : List Nat

/-- `barcode` options object (`options.width/height/position/font/
includeParity`); `none` models an absent (`undefined`) property.
Numeric properties are restricted to integers, the only values the
source's comparisons and tables are defined for. -/
structure BOpts where
  width : Option Int
  height : Option Int
  position : Option Jstr
  font : Option Jstr
  includeParity : Option Bool

/-- The two calling conventions of `barcode` (utils.js lines 536-550):
`positional` models a third argument of string/number type (width, height,
position, font passed positionally — `includeParity` is never assigned),
`opts` models an options object. -/
inductive BArgs where
  | positional (w : Int) (h : Option Int) (pos fnt : Option Jstr)
  | opts (o : BOpts)

/-- The resolved `includeParity` flag: never set (hence falsy) on the
positional path; `options.includeParity !== false` (true by default) on
the options path. -/
def barcodeIncludeParity : BArgs → Bool
  | .positional _ _ _ _ => false
  | .opts o => match o.includeParity with
    | some false => false
    | _ => true

/-- Resolved barcode width argument. -/
def barcodeArgWidth : BArgs → Option Int
  | .positional w _ _ _ => some w
  | .opts o => o.width

/-- Resolved barcode height argument. -/
def barcodeArgHeight : BArgs → Option Int
  | .positional _ h _ _ => h
  | .opts o => o.height

/-- Resolved barcode text-position argument. -/
def barcodeArgPos : BArgs → Option Jstr
  | .positional _ _ p _ => p
  | .opts o => o.position

/-- Resolved barcode font argument. -/
def barcodeArgFont : BArgs → Option Jstr
  | .positional _ _ _ f => f
  | .opts o => o.font

/-- `type.replace('-', '_')`: JavaScript `replace` with a string pattern
replaces only the first occurrence. -/
def replaceFirstDash : Jstr → Jstr
  | [] => []
  | c :: r => if c = 45 then 95 :: r else c :: replaceFirstDash r

/-- The payload frame of `barcode` (utils.js line 603):
`codeLength + code + (includeParity ? parityBit : '') + '\x00'` with
`codeLength` set only for CODE128/CODE93 and `parityBit` only for
EAN13/EAN8 under `includeParity`. -/
def barcodeFrameStr (ty code : Jstr) (includeParity : Bool) : Jstr :=
  (if ty = strU "CODE128" ∨ ty = strU "CODE93" then codeLengthStr code.length
   else [])
  ++ code
  ++ (if includeParity then
        (if ty = strU "EAN13" ∨ ty = strU "EAN8" then getParityBit code else [])
      else [])
  ++ [0]

/-- The command bytes `barcode` emits before the payload frame
(utils.js lines 563-594): QSPrinter mode-on toggle, width command (absent
on QSPrinter), height command (clamped to `[1,255]`, else a model-specific
default), font command (absent on QSPrinter), text-position command and
symbology-select command. -/
def barcodePreBytes (K : Commands) (sess : Session) (args : BArgs)
    (ty : Jstr) : List Nat :=
  (if isQs sess then K.qsBarcodeModeOn else [])
  ++ (if isQs sess then []
      else match barcodeArgWidth args with
      | some w => if 1 ≤ w ∧ w ≤ 5 then K.barcodeWidth w else K.barcodeWidthDefault
      | none => K.barcodeWidthDefault)
  ++ (match barcodeArgHeight args with
      | some h =>
        if 1 ≤ h ∧ h ≤ 255 then K.barcodeHeight h
        else if isQs sess then K.qsBarcodeHeightDefault else K.barcodeHeightDefault
      | none => if isQs sess then K.qsBarcodeHeightDefault else K.barcodeHeightDefault)
  ++ (if isQs sess then []
      else K.barcodeFont (toUpperJ (jstrOr (barcodeArgFont args) (strU "A"))))
  ++ K.barcodeTxt (toUpperJ (jstrOr (barcodeArgPos args) (strU "BLW")))
  ++ K.barcodeSym (toUpperJ (replaceFirstDash ty))

/-- `Printer.prototype.barcode` (utils.js lines 534-608).  The
falsy-replaced type (`type || 'EAN13'`) makes the subsequent
null/undefined `TypeError` check unreachable, so it is not modelled.  The
EAN13/EAN8 length validations throw before anything is written. -/
def barcodeSteps (K : Commands) (sess : Session) (code : Jstr)
    (ty0 : Option Jstr) (args : BArgs) : List Step :=
  let ty := jstrOr ty0 (strU "EAN13")
  if ty = strU "EAN13" ∧ code.length ≠ 12 then [Step.fail .invalidArgument]
  else if ty = strU "EAN8" ∧ code.length ≠ 7 then [Step.fail .invalidArgument]
  else
    [Step.bytes (barcodePreBytes K sess args ty),
     Step.bytes (utf8Encode (barcodeFrameStr ty code (barcodeIncludeParity args)))]
    ++ (if isQs sess then [Step.bytes K.qsBarcodeModeOff] else [])

/-- JavaScript `v || dflt` for integer arguments (`0` is falsy). -/
def intOr (o : Option Int) (dflt : Int) : Int :=
  match o with
  | some v => if v = 0 then dflt else v
  | none => dflt

/-- The generic (non-QSPrinter) `qrcode` path (utils.js lines 619-628):
2D-symbol select commands, version (default 3), level (default `'L'`),
module size (default 6), a little-endian 16-bit length of the payload
string, then the payload bytes. -/
def qrcodeGenericSteps (K : Commands) (code : Jstr) (ver : Option Int)
    (lvl : Option Jstr) (sz : Option Int) : List Step :=
  [Step.bytes K.typeQR,
   Step.bytes K.code2d,
   Step.u8 (intOr ver 3),
   Step.bytes (K.qrLevel (toUpperJ (jstrOr lvl (strU "L")))),
   Step.u8 (intOr sz 6),
   Step.u16 (code.length : Int),
   Step.bytes (utf8Encode code)]

/-- The QSPrinter clamp for size/version (utils.js lines 636-641 and
646-651): non-number or falsy values become the default, out-of-bounds
numbers are clamped to `[min, max]`. -/
def qsClamp (v : Option Int) (dflt mn mx : Int) : Int :=
  match v with
  | some n =>
    if n = 0 then dflt
    else if n < mn then mn
    else if n > mx then mx
    else n
  | none => dflt

/-- The QSPrinter `qrcode` path (utils.js lines 630-671), transcribed
literally: note the payload-length guard is
`dataRaw.length < 1 && dataRaw.length > 2710` — a conjunction no length
satisfies — followed by pixel-size, version and level configuration, the
store-to-buffer phase and the print-from-buffer phase, both declaring
`dataRaw.length + LEN_OFFSET`. -/
def qrcodeQsSteps (K : Commands) (code : Jstr) (ver : Option Int)
    (lvl : Option Jstr) (sz : Option Int) : List Step :=
  let dataRaw := utf8Encode code
  if dataRaw.length < 1 ∧ dataRaw.length > 2710 then
    [Step.fail .invalidArgument]
  else
    [Step.bytes K.qsPixelCmd,
     Step.u8 (qsClamp sz K.qsPixelDefault K.qsPixelMin K.qsPixelMax),
     Step.bytes K.qsVersionCmd,
     Step.u8 (qsClamp ver K.qsVersionDefault K.qsVersionMin K.qsVersionMax),
     Step.bytes K.qsLevelCmd,
     Step.bytes (K.qsLevelOptions (toUpperJ (jstrOr lvl K.qrLevelLName))),
     Step.bytes K.qsSavebufP1,
     Step.u16 ((dataRaw.length + K.lenOffset : Nat) : Int),
     Step.bytes K.qsSavebufP2,
     Step.bytes dataRaw,
     Step.bytes K.qsPrintbufP1,
     Step.u16 ((dataRaw.length + K.lenOffset : Nat) : Int),
     Step.bytes K.qsPrintbufP2]

/-- A decoded image (the external image-decoding collaborator's output):
`bitmap d` models `image.toBitmap(d).data`, the remaining fields model
`image.toRaster()`. -/
structure RImage where
  bitmap : Nat → List (List Nat)
  rasterWidth : Nat
  rasterHeight : Nat
  rasterData : List Nat

/-- `Printer.prototype.raster` (utils.js lines 735-749): a non-`Image`
argument (modelled by `none`) throws before anything is written; the mode
aliases `dhdw`/`dwh`/`dhw` normalize to `dwdh`. -/
def rasterSteps (K : Commands) (img : Option RImage) (mode0 : Option Jstr) :
    List Step :=
  match img with
  | none => [Step.fail .invalidArgument]
  | some im =>
    let m1 := jstrOr mode0 (strU "normal")
    let m2 := if m1 = strU "dhdw" ∨ m1 = strU "dwh" ∨ m1 = strU "dhw" then
        strU "dwdh" else m1
    [Step.bytes (K.gsv0Header (toUpperJ m2)),
     Step.u16 (im.rasterWidth : Int),
     Step.u16 (im.rasterHeight : Int),
     Step.bytes im.rasterData]

/-- One band of the `image` bitmap loop (utils.js lines 717-725): header,
little-endian 16-bit `line.length / n` (a fractional value would make
`writeUInt16LE` throw), the band's bytes, and a line terminator.  The
inter-band pacing delay has no effect on the emitted bytes. -/
def imageLineSteps (K : Commands) (header : List Nat) (n : Nat) :
    List (List Nat) → List Step
  | [] => []
  | line :: rest =>
    [Step.bytes header,
     Step.u16q ((line.length : ℚ) / (n : ℚ)),
     Step.bytes line,
     Step.bytes (utf8Encode K.eol)]
    ++ imageLineSteps K header n rest

/-- `Printer.prototype.image` (utils.js lines 705-727): a non-`Image`
argument throws before anything is written; otherwise line spacing is set
to 0, each band of `image.toBitmap(n*8)` is emitted in order, and line
spacing is restored to the default. -/
def imageSteps (K : Commands) (img : Option RImage) (density0 : Option Jstr) :
    List Step :=
  match img with
  | none => [Step.fail .invalidArgument]
  | some im =>
    let density := jstrOr density0 (strU "d24")
    let n : Nat := if density = strU "d8" ∨ density = strU "s8" then 1 else 3
    let header := K.bitmapHeader (toUpperJ density)
    [Step.bytes K.lsSet, Step.u8 0]
    ++ imageLineSteps K header n (im.bitmap (n * 8))
    ++ [Step.bytes K.lsDefault]

/-! ## `tableCustom` and the top-level command state machine -/

/-- Floor of a rational (kernel-friendly: Euclidean division of numerator
by the positive denominator). -/
def qfloor (q : ℚ) : Int := Int.ediv q.num (q.den : Int)

/-- Ceiling of a rational. -/
def qceil (q : ℚ) : Int := -(qfloor (-q))

/-- Number of iterations of a JavaScript loop
`for (j = 0; j < bound; j++)` with a possibly fractional `bound`:
`max 0 ⌈bound⌉`. -/
def qceilNat (q : ℚ) : Nat := (qceil q).toNat

/-- A JavaScript `substring` index: truncated toward zero and clamped to
be non-negative (identical to `max 0 ⌊q⌋` on every value that survives the
clamp). -/
def qfloorNat (q : ℚ) : Nat := (qfloor q).toNat

/-- One cell of the `tableCustom` layout descriptor: text, optional
`width` fraction, optional `cols` count, and the alignment token that is
compared against `"CENTER"` and `"RIGHT"`. -/
structure Cell where
  text : Jstr
  width : Option ℚ
  cols : Option ℚ
  align : Jstr

/-- JavaScript truthiness of an optional numeric property (`0` and
`undefined` are falsy). -/
def optQTruthy (o : Option ℚ) : Option ℚ :=
  match o with
  | some q => if q = 0 then none else some q
  | none => none

/-- Accumulator of the `tableCustom` cell loop: the running cell width
(mutated by `width`/`cols` properties and kept across cells), the line
built so far, the synthetic second-line cells, and whether any cell
overflowed. -/
structure TCAcc where
  cellWidth : ℚ
  lineStr : Jstr
  secondLine : List Cell
  enabled : Bool

/-- A run of spaces. -/
def repSpaces (n : Nat) : Jstr := List.replicate n 32

/-- One iteration of the `tableCustom` cell loop (utils.js lines 250-310):
resolve the cell width, truncate an overflowing text at
`substring(0, cellWidth - 1)`, lay the text out LEFT/CENTER/RIGHT with
space loops bounded by the (possibly fractional) space count, and push the
remainder (or an emptied cell) onto the second line. -/
def tcCell (sess : Session) (acc : TCAcc) (c : Cell) : TCAcc :=
  let cw : ℚ :=
    match optQTruthy c.width with
    | some w => sess.width * w
    | none =>
      match optQTruthy c.cols with
      | some k => k
      | none => acc.cellWidth
  let tooLong := decide (cw < (c.text.length : ℚ))
  let text1 := if tooLong then c.text.take (qfloorNat (cw - 1)) else c.text
  let seg :=
    if c.align = strU "CENTER" then
      let spaces : ℚ := (cw - (text1.length : ℚ)) / 2
      repSpaces (qceilNat spaces) ++ (if text1 ≠ [] then text1 else [])
        ++ repSpaces (qceilNat (spaces - 1))
    else if c.align = strU "RIGHT" then
      repSpaces (qceilNat (cw - (text1.length : ℚ)))
        ++ (if text1 ≠ [] then text1 else [])
    else
      (if text1 ≠ [] then text1 else [])
        ++ repSpaces (qceilNat (cw - (text1.length : ℚ)))
  let newCell :=
    if tooLong then { c with text := c.text.drop (qfloorNat (cw - 1)) }
    else { c with text := [] }
  { cellWidth := cw, lineStr := acc.lineStr ++ seg,
    secondLine := acc.secondLine ++ [newCell],
    enabled := acc.enabled || tooLong }

/-- The full cell loop of `tableCustom`: initial cell width is
`this.width / data.length` (unused when `data` is empty). -/
def lineOf (sess : Session) (data : List Cell) : TCAcc :=
  data.foldl (tcCell sess) ⟨sess.width / (data.length : ℚ), [], [], false⟩

/-- `Printer.prototype.tableCustom` (utils.js lines 244-319), as the bytes
it appends: one encoded line per recursion level; the recursive call for
the second line passes no encoding argument.  JavaScript recursion is
unbounded (and need not terminate when a cell width is ≤ 1), so the model
carries explicit fuel; every claim below is stated with enough fuel. -/
def tableCustomBytes (ef : Jstr → Jstr → List Nat) (K : Commands) :
    Nat → Session → List Cell → Option Jstr → List Nat
  | 0, _, _, _ => []
  | fuel + 1, sess, data, enc =>
    let acc := lineOf sess data
    ef (jstrOr enc sess.encoding) (acc.lineStr ++ K.eol)
      ++ (if acc.enabled then tableCustomBytes ef K fuel sess acc.secondLine none
          else [])

/-- Strip `/(\s|:)/g` from a (lower-cased) `raw` hex string; the source's
`\s` also matches rarer Unicode spaces, which the ASCII hex strings this
API accepts never contain. -/
def rawHexClean (s : Jstr) : Jstr :=
  (toLowerJ s).filter fun c =>
    !(c == 32 || c == 9 || c == 10 || c == 11 || c == 12 || c == 13 || c == 58)

/-- The builder operations modelled here, one constructor per
`Printer.prototype` method (arguments as in the source; `none` models an
absent argument).  `tableCustom` carries the recursion fuel described at
`tableCustomBytes`. -/
inductive Cmd where
  | print (content : Jstr)
  | text (content : Jstr) (enc : Option Jstr)
  | rawBuf (bs : List Nat)
  | rawHex (s : Jstr)
  | setEncoding (e : Jstr)
  | setModel (m : Option Jstr)
  | barcode (code : Jstr) (ty : Option Jstr) (args : BArgs)
  | qrcode (code : Jstr) (ver : Option Int) (lvl : Option Jstr) (sz : Option Int)
  | image (img : Option RImage) (density : Option Jstr)
  | raster (img : Option RImage) (mode : Option Jstr)
  | tableCustom (fuel : Nat) (data : List Cell) (enc : Option Jstr)

/-- The buffer writes (and thrown errors) one builder operation performs,
given the session state.  `ef` is the external charset transcoder
(`iconv.encode`), taking the encoding name and the string. -/
def cmdSteps (K : Commands) (ef : Jstr → Jstr → List Nat) (c : Cmd)
    (sess : Session) : List Step :=
  match c with
  | .print content => [Step.bytes (utf8Encode content)]
  | .text content enc =>
    [Step.bytes (ef (jstrOr enc sess.encoding) (content ++ K.eol))]
  | .rawBuf bs => [Step.bytes bs]
  | .rawHex s => [Step.bytes (hexPairsDecode (rawHexClean s))]
  | .setEncoding _ => []
  | .setModel _ => []
  | .barcode code ty args => barcodeSteps K sess code ty args
  | .qrcode code ver lvl sz =>
    if isQs sess then qrcodeQsSteps K code ver lvl sz
    else qrcodeGenericSteps K code ver lvl sz
  | .image img d => imageSteps K img d
  | .raster img m => rasterSteps K img m
  | .tableCustom fuel data enc =>
    [Step.bytes (tableCustomBytes ef K fuel sess data enc)]

/-- The session-state transition of one operation (`encode` and `model`
are the only modelled operations that mutate session state). -/
def cmdSession (c : Cmd) (sess : Session) : Session :=
  match c with
  | .setEncoding e => { sess with encoding := e }
  | .setModel m => { sess with model := m }
  | _ => sess

/-- A printer instance: session state, the `MutableBuffer` contents, and
the list of byte blocks handed to `adapter.write` so far. -/
structure PState where
  session : Session
  buffer : List Nat
  written : List (List Nat)

/-- Execute one builder operation: append the bytes it produced (the
successfully written prefix, when it throws mid-way) and report the thrown
error, if any.  A throwing operation leaves the printer object itself
reachable with exactly this state. -/
def execR (K : Commands) (ef : Jstr → Jstr → List Nat) (c : Cmd)
    (s : PState) : PState × Option JsErr :=
  let r := runSteps (cmdSteps K ef c s.session)
  ({ s with buffer := s.buffer ++ r.1, session := cmdSession c s.session }, r.2)

/-- Execute a chain of builder operations, stopping at the first thrown
error (an uncaught exception aborts the rest of the chain). -/
def runCmds (K : Commands) (ef : Jstr → Jstr → List Nat) :
    List Cmd → PState → PState × Option JsErr
  | [], s => (s, none)
  | c :: rest, s =>
    let r := execR K ef c s
    match r.2 with
    | some e => (r.1, some e)
    | none => runCmds K ef rest r.1

/-- `Printer.prototype.flush` (utils.js lines 780-784): drain the entire
buffer (`this.buffer.flush()`) and hand it to `this.adapter.write` as one
block. -/
def flushP (s : PState) : PState :=
  { s with buffer := [], written := s.written ++ [s.buffer] }

/-- The bytes one operation appends (its successful write prefix). -/
def cmdBytes (K : Commands) (ef : Jstr → Jstr → List Nat) (c : Cmd)
    (sess : Session) : List Nat :=
  (runSteps (cmdSteps K ef c sess)).1

/-- The per-operation byte blocks of a chain, in call order, with the
session state evolving across the chain. -/
def opsBytes (K : Commands) (ef : Jstr → Jstr → List Nat) :
    List Cmd → Session → List (List Nat)
  | [], _ => []
  | c :: rest, sess => cmdBytes K ef c sess :: opsBytes K ef rest (cmdSession c sess)


/-! ## Spec-side definitions and concrete sample instances -/

/-- The standard EAN weighted sum of a digit string, position-indexed from
the rightmost digit: weight `3 ^ (i % 2)`, i.e. weight 1 on the rightmost
digit and weights 3 and 1 alternating leftwards (equivalently, weights
3, 1, 3, ... from the rightmost payload digit once a check digit has been
appended). -/
def eanWeightedSumAux : Jstr → Nat → Nat
  | [], _ => 0
  | c :: r, i => (c - 48) * 3 ^ (i % 2) + eanWeightedSumAux r (i + 1)

/-- EAN validity sum of a full digit sequence (see `eanWeightedSumAux`). -/
def eanWeightedSum (s : Jstr) : Nat := eanWeightedSumAux s.reverse 0

/-- The check digit computed exactly as the spec words it: reverse the
digit string, multiply the digit at position `i` by 3 when `(i + 1)` is
odd and by 1 otherwise, sum. -/
def specWeightedSumAux : Jstr → Nat → Nat
  | [], _ => 0
  | c :: r, i =>
    (c - 48) * (if (i + 1) % 2 = 1 then 3 else 1) + specWeightedSumAux r (i + 1)

/-- The spec's description of `checkDigit`: `(10 - (sum mod 10)) mod 10`
as one ASCII digit. -/
def specCheckDigit (s : Jstr) : Jstr :=
  [48 + (10 - specWeightedSumAux s.reverse 0 % 10) % 10]

/-- A concrete `Commands` instance (arbitrary placeholder byte values) used
to evaluate the parameterized theorems on closed inputs. -/
def Ksample : Commands where
  eol := strU "\n"
  barcodeWidth := fun _ => [1]
  barcodeWidthDefault := [2]
  barcodeHeight := fun _ => [3]
  barcodeHeightDefault := [4]
  qsBarcodeHeightDefault := [5]
  barcodeFont := fun _ => [6]
  barcodeTxt := fun _ => [7]
  barcodeSym := fun _ => [8]
  qsBarcodeModeOn := [9]
  qsBarcodeModeOff := [10]
  typeQR := [11]
  code2d := [12]
  qrLevel := fun _ => [13]
  qrLevelLName := strU "L"
  qsPixelCmd := [14]
  qsPixelMin := 1
  qsPixelMax := 24
  qsPixelDefault := 12
  qsVersionCmd := [15]
  qsVersionMin := 1
  qsVersionMax := 16
  qsVersionDefault := 3
  qsLevelCmd := [16]
  qsLevelOptions := fun _ => [17]
  qsSavebufP1 := [18]
  qsSavebufP2 := [19]
  qsPrintbufP1 := [20]
  qsPrintbufP2 := [21]
  lenOffset := 3
  bitmapHeader := fun _ => [22]
  gsv0Header := fun _ => [23]
  lsDefault := [24]
  lsSet := [25]

/-- A concrete charset transcoder for closed evaluations: tags the bytes
with the encoding name, so different encodings give different bytes. -/
def efSample (enc s : Jstr) : List Nat := enc ++ s

/-- A concrete fresh printer state (defaults of the constructor:
encoding `'GB18030'`, width 48, generic model). -/
def st0 : PState := ⟨⟨strU "GB18030", 48, none⟩, [], []⟩

/-- A concrete printer state whose model is `'qsprinter'`. -/
def stQs : PState := ⟨⟨strU "GB18030", 48, some (strU "qsprinter")⟩, [], []⟩


/-- An empty `barcode` options object: every property absent (the
two-argument call `barcode(code, 'EAN13')`). -/
def optsDefault : BOpts := ⟨none, none, none, none, none⟩

/-- The two-argument call `barcode(code, 'EAN13')`. -/
def ean13DefaultCmd (code : Jstr) : Cmd :=
  Cmd.barcode code (some (strU "EAN13")) (BArgs.opts optsDefault)

/-! ## Helper lemmas -/

theorem bytesLength_append (a b : Jstr) :
    bytesLength (a ++ b) = bytesLength a + bytesLength b := by
  induction a with
  | nil => simp [bytesLength]
  | cons c r ih => simp [bytesLength, ih]; omega

theorem bytesLength_repSpaces (n : Nat) :
    bytesLength (List.replicate n 32) = n := by
  induction n with
  | zero => simp [bytesLength]
  | succ k ih => simp [List.replicate_succ, bytesLength, ih]; omega

theorem utf8EncodeAux_ascii (s : List Nat) :
    ∀ f : Nat, s.length ≤ f → (∀ c ∈ s, c ≤ 0x7F) → utf8EncodeAux f s = s := by
  induction s with
  | nil => intro f _ _; cases f <;> rfl
  | cons u rest ih =>
    intro f hf hc
    match f with
    | fuel + 1 =>
      have hu : u ≤ 0x7F := hc u (by simp)
      simp only [utf8EncodeAux, if_pos hu]
      rw [ih fuel (by simpa using hf) (fun c hcm => hc c (by simp [hcm]))]

theorem utf8Encode_ascii (s : List Nat) (hc : ∀ c ∈ s, c ≤ 0x7F) :
    utf8Encode s = s :=
  utf8EncodeAux_ascii s s.length le_rfl hc

theorem runSteps_invalid_mem (l : List Step)
    (h : (runSteps l).2 = some JsErr.invalidArgument) :
    Step.fail JsErr.invalidArgument ∈ l := by
  induction l with
  | nil => simp [runSteps] at h
  | cons st r ih =>
    cases st with
    | bytes bs =>
      simp only [runSteps, stepOut] at h
      exact List.mem_cons_of_mem _ (ih h)
    | u8 n =>
      by_cases hc : (0 : Int) ≤ n ∧ n ≤ 255
      · simp [runSteps, stepOut, if_pos hc] at h
        exact List.mem_cons_of_mem _ (ih h)
      · simp [runSteps, stepOut, if_neg hc] at h
    | u16 n =>
      by_cases hc : (0 : Int) ≤ n ∧ n ≤ 65535
      · simp [runSteps, stepOut, if_pos hc] at h
        exact List.mem_cons_of_mem _ (ih h)
      · simp [runSteps, stepOut, if_neg hc] at h
    | u16q q =>
      by_cases hc : q.den = 1 ∧ 0 ≤ q.num ∧ q.num ≤ 65535
      · simp only [runSteps, stepOut, if_pos hc] at h
        exact List.mem_cons_of_mem _ (ih h)
      · simp only [runSteps, stepOut, if_neg hc] at h
        exact absurd h (by decide)
    | fail e =>
      simp only [runSteps, stepOut] at h
      cases e with
      | invalidArgument => exact List.mem_cons_self _ _
      | rangeError => exact absurd h (by decide)

theorem paritySum_digits (l : Jstr) :
    ∀ i : Nat, (∀ c ∈ l, 48 ≤ c ∧ c ≤ 57) →
      paritySum l i = some (eanWeightedSumAux l (i + 1)) := by
  induction l with
  | nil => intro i _; rfl
  | cons c r ih =>
    intro i h
    have hc := h c (by simp)
    have hr := ih (i + 1) (fun x hx => h x (by simp [hx]))
    simp [paritySum, parseIntDigit, if_pos hc, hr, eanWeightedSumAux]

theorem specWeightedSumAux_eq (l : Jstr) :
    ∀ i : Nat, specWeightedSumAux l i = eanWeightedSumAux l (i + 1) := by
  induction l with
  | nil => intro i; rfl
  | cons c r ih =>
    intro i
    have h3 : (if (i + 1) % 2 = 1 then 3 else 1) = 3 ^ ((i + 1) % 2) := by
      rcases Nat.mod_two_eq_zero_or_one (i + 1) with h | h <;> simp [h]
    simp [specWeightedSumAux, eanWeightedSumAux, ih, h3]

/-! ## The claims -/

/-- C8: `bytesLength s` equals the sum over the code units of `s` of 1
when the unit is at most `0x00FF` and 2 otherwise; in particular it is `n`
for a pure-ASCII string of length `n` and `2n` when every unit is outside
the single-byte range. -/
theorem bytesLength_unit_width (s : Jstr) :
    bytesLength s = (s.map (fun c => if c ≤ 0xFF then 1 else 2)).sum
    ∧ ((∀ c ∈ s, c ≤ 0x7F) → bytesLength s = s.length)
    ∧ ((∀ c ∈ s, 0xFF < c) → bytesLength s = 2 * s.length) := by
  induction s with
  | nil => simp [bytesLength]
  | cons c r ih =>
    refine ⟨?_, ?_, ?_⟩
    · simp [bytesLength, ih.1]
    · intro h
      have hc := h c (by simp)
      have hr := ih.2.1 (fun x hx => h x (by simp [hx]))
      simp only [bytesLength, hr, if_pos (show c ≤ 0xFF by omega), List.length_cons]
      omega
    · intro h
      have hc := h c (by simp)
      have hr := ih.2.2 (fun x hx => h x (by simp [hx]))
      simp only [bytesLength, hr, if_neg (show ¬c ≤ 0xFF by omega), List.length_cons]
      omega

theorem bytesLength_unit_width_witness :
    bytesLength (strU "abc") = 3 ∧ bytesLength [0x4E2D, 0x6587] = 4 :=
  ⟨((bytesLength_unit_width (strU "abc")).2.1 (by decide)).trans (by decide),
   ((bytesLength_unit_width [0x4E2D, 0x6587]).2.2 (by decide)).trans (by decide)⟩

/-- C7: when `w ≥ bytesLength left + bytesLength right`, `spaceText`
returns `left`, exactly `w - bytesLength left - bytesLength right` spaces,
then `right`, and the result's byte width is exactly `w`; otherwise it
returns `left ++ right` unpadded. -/
theorem spaceText_pads (l r : Jstr) (w : Int) :
    spaceText l r w
      = l ++ List.replicate (w - (bytesLength l : Int) - (bytesLength r : Int)).toNat 32 ++ r
    ∧ ((bytesLength l : Int) + (bytesLength r : Int) ≤ w →
        (bytesLength (spaceText l r w) : Int) = w)
    ∧ (w < (bytesLength l : Int) + (bytesLength r : Int) → spaceText l r w = l ++ r) := by
  refine ⟨rfl, ?_, ?_⟩
  · intro h
    rw [spaceText]
    simp only [bytesLength_append, bytesLength_repSpaces]
    push_cast
    omega
  · intro h
    rw [spaceText]
    have h0 : ((w - (bytesLength l : Int) - (bytesLength r : Int)).toNat) = 0 := by omega
    simp [h0]

theorem spaceText_pads_witness :
    (bytesLength (spaceText (strU "ab") (strU "cd") 8) : Int) = 8
    ∧ spaceText (strU "ab") (strU "cd") 3 = strU "ab" ++ strU "cd" :=
  ⟨(spaceText_pads (strU "ab") (strU "cd") 8).2.1 (by decide),
   (spaceText_pads (strU "ab") (strU "cd") 3).2.2 (by decide)⟩

/-- C3 (refuting evaluation): `codeLength` of a 12-character payload is
the EMPTY string, not a single byte of value 12 — `(12).toString(16)` is
the odd-length string `"c"`, of which `Buffer.from(·, 'hex')` decodes
nothing — so a CODE128 frame for a 12-character payload carries no length
prefix at all. -/
theorem codeLength_empty_for_twelve :
    codeLengthStr 12 = []
    ∧ codeLengthStr 12 ≠ [12]
    ∧ barcodeFrameStr (strU "CODE128") (strU "123456789012") true
        = strU "123456789012" ++ [0] := by
  refine ⟨by decide, by decide, by decide⟩

/-- C4: appending `getParityBit d` to an 11- or 12-digit string `d` yields
a sequence whose standard EAN weighted alternating sum (weight 1 on the
rightmost digit — the appended check digit — and weights 3 and 1
alternating leftwards from the rightmost payload digit) is 0 mod 10; and
`getParityBit` computes exactly the spec's description: reverse, weight
position `i` by 3 when `(i+1)` is odd and 1 otherwise, sum, return
`(10 - (sum mod 10)) mod 10` as one ASCII digit. -/
theorem getParityBit_ean_valid (ds : Jstr)
    (hd : ∀ c ∈ ds, 48 ≤ c ∧ c ≤ 57)
    (hlen : ds.length = 11 ∨ ds.length = 12) :
    eanWeightedSum (ds ++ getParityBit ds) % 10 = 0
    ∧ getParityBit ds = specCheckDigit ds := by
  have hdrev : ∀ c ∈ ds.reverse, 48 ≤ c ∧ c ≤ 57 := fun c hc =>
    hd c (List.mem_reverse.mp hc)
  have hp := paritySum_digits ds.reverse 0 hdrev
  constructor
  · simp only [eanWeightedSum, getParityBit, hp, List.reverse_append,
      List.reverse_cons, List.reverse_nil, List.nil_append,
      List.singleton_append, eanWeightedSumAux, Nat.zero_mod, pow_zero,
      mul_one]
    omega
  · rw [getParityBit, hp, specCheckDigit, specWeightedSumAux_eq]

theorem getParityBit_ean_valid_witness :
    eanWeightedSum (strU "123456789012" ++ getParityBit (strU "123456789012")) % 10 = 0
    ∧ getParityBit (strU "123456789012") = specCheckDigit (strU "123456789012") :=
  getParityBit_ean_valid (strU "123456789012") (by decide) (by decide)

/-- C2: `barcode(code, 'EAN13')` throws the `InvalidArgument`-kind error
exactly when the payload length differs from 12; for a 12-digit payload
it succeeds and the payload frame appended after the format commands is
the 12 payload characters, then `getParityBit code` (`includeParity`
defaults to true on the options path), then the terminator `0x00`. -/
theorem barcode_ean13_contract (K : Commands) (ef : Jstr → Jstr → List Nat)
    (code : Jstr) (s : PState) :
    ((execR K ef (ean13DefaultCmd code) s).2 = some JsErr.invalidArgument
      ↔ code.length ≠ 12)
    ∧ (code.length = 12 → (∀ u ∈ code, 48 ≤ u ∧ u ≤ 57) →
        (execR K ef (ean13DefaultCmd code) s).2 = none
        ∧ (execR K ef (ean13DefaultCmd code) s).1.buffer
          = s.buffer
            ++ barcodePreBytes K s.session (BArgs.opts optsDefault) (strU "EAN13")
            ++ (code ++ getParityBit code ++ [0])
            ++ (if isQs s.session then K.qsBarcodeModeOff else [])) := by
  have hty : jstrOr (some (strU "EAN13")) (strU "EAN13") = strU "EAN13" := by decide
  have h8 : ¬(strU "EAN13" = strU "EAN8") := by decide
  by_cases hlen : code.length = 12
  · constructor
    · constructor
      · intro herr
        exfalso
        simp only [ean13DefaultCmd, execR, cmdSteps, barcodeSteps, hty] at herr
        cases hqs : isQs s.session <;>
          simp [hqs, hlen, h8, runSteps, stepOut] at herr
      · intro hne; exact absurd hlen hne
    · intro _ hdig
      have hgp : getParityBit code
          = [48 + (10 - eanWeightedSumAux code.reverse 1 % 10) % 10] := by
        rw [getParityBit,
          paritySum_digits code.reverse 0
            (fun c hc => hdig c (List.mem_reverse.mp hc))]
      have hascii : ∀ u ∈ code ++ (getParityBit code ++ [0]), u ≤ 0x7F := by
        intro u hu
        rcases List.mem_append.mp hu with hu | hu
        · have := hdig u hu; omega
        · rcases List.mem_append.mp hu with hu | hu
          · rw [hgp] at hu
            simp only [List.mem_singleton] at hu
            have : (10 - eanWeightedSumAux code.reverse 1 % 10) % 10 < 10 :=
              Nat.mod_lt _ (by omega)
            omega
          · simp only [List.mem_singleton] at hu; omega
      have hframe : barcodeFrameStr (strU "EAN13") code
          (barcodeIncludeParity (BArgs.opts optsDefault))
          = code ++ (getParityBit code ++ [0]) := by
        have hip : barcodeIncludeParity (BArgs.opts optsDefault) = true := rfl
        rw [barcodeFrameStr, hip]
        rw [if_neg (show ¬(strU "EAN13" = strU "CODE128" ∨ strU "EAN13" = strU "CODE93") by decide),
          if_pos rfl,
          if_pos (show strU "EAN13" = strU "EAN13" ∨ strU "EAN13" = strU "EAN8" from Or.inl rfl)]
        simp
      constructor
      · simp only [ean13DefaultCmd, execR, cmdSteps, barcodeSteps, hty]
        cases hqs : isQs s.session <;>
          simp [hqs, hlen, h8, runSteps, stepOut]
      · simp only [ean13DefaultCmd, execR, cmdSteps, barcodeSteps, hty, hframe,
          utf8Encode_ascii _ hascii]
        cases hqs : isQs s.session <;>
          simp [hqs, hlen, h8, runSteps, stepOut, List.append_assoc]
  · constructor
    · constructor
      · intro _; exact hlen
      · intro _
        simp [ean13DefaultCmd, execR, cmdSteps, barcodeSteps, hty, hlen, h8,
          runSteps, stepOut]
    · intro h12; exact absurd h12 hlen

theorem barcode_ean13_contract_witness :
    ((execR Ksample efSample (ean13DefaultCmd (strU "12345678901")) st0).2
      = some JsErr.invalidArgument)
    ∧ (execR Ksample efSample (ean13DefaultCmd (strU "123456789012")) st0).2 = none
    ∧ (execR Ksample efSample (ean13DefaultCmd (strU "123456789012")) st0).1.buffer
      = st0.buffer
        ++ barcodePreBytes Ksample st0.session (BArgs.opts optsDefault) (strU "EAN13")
        ++ (strU "123456789012" ++ getParityBit (strU "123456789012") ++ [0])
        ++ (if isQs st0.session then Ksample.qsBarcodeModeOff else []) :=
  ⟨(barcode_ean13_contract Ksample efSample (strU "12345678901") st0).1.mpr (by decide),
   ((barcode_ean13_contract Ksample efSample (strU "123456789012") st0).2 (by decide) (by decide)).1,
   ((barcode_ean13_contract Ksample efSample (strU "123456789012") st0).2 (by decide) (by decide)).2⟩

/-- C9: on the backward-compatible positional calling convention
`includeParity` is never assigned (hence false), so even a valid EAN13 or
EAN8 payload is framed without a check digit — whereas the options-object
convention defaults `includeParity` to true and frames the check digit. -/
theorem barcode_positional_no_parity (w : Int) (h : Option Int)
    (p f : Option Jstr) (ow oh : Option Int) (op ofo : Option Jstr)
    (code : Jstr) (K : Commands) (ef : Jstr → Jstr → List Nat) (s : PState) :
    barcodeIncludeParity (BArgs.positional w h p f) = false
    ∧ barcodeIncludeParity (BArgs.opts ⟨ow, oh, op, ofo, none⟩) = true
    ∧ barcodeFrameStr (strU "EAN13") code false = code ++ [0]
    ∧ barcodeFrameStr (strU "EAN8") code false = code ++ [0]
    ∧ barcodeFrameStr (strU "EAN13") code true = code ++ (getParityBit code ++ [0])
    ∧ (code.length = 12 →
        (execR K ef (Cmd.barcode code (some (strU "EAN13"))
          (BArgs.positional w h p f)) s).2 = none
        ∧ (execR K ef (Cmd.barcode code (some (strU "EAN13"))
            (BArgs.positional w h p f)) s).1.buffer
          = s.buffer
            ++ barcodePreBytes K s.session (BArgs.positional w h p f) (strU "EAN13")
            ++ utf8Encode (code ++ [0])
            ++ (if isQs s.session then K.qsBarcodeModeOff else [])) := by
  have hty : jstrOr (some (strU "EAN13")) (strU "EAN13") = strU "EAN13" := by decide
  have h8 : ¬(strU "EAN13" = strU "EAN8") := by decide
  have hc13 : ¬(strU "EAN13" = strU "CODE128" ∨ strU "EAN13" = strU "CODE93") := by
    decide
  have hc8 : ¬(strU "EAN8" = strU "CODE128" ∨ strU "EAN8" = strU "CODE93") := by
    decide
  refine ⟨rfl, rfl, ?_, ?_, ?_, ?_⟩
  · simp [barcodeFrameStr, hc13]
  · simp [barcodeFrameStr, hc8]
  · simp [barcodeFrameStr, hc13]
  · intro h12
    have hfr : barcodeFrameStr (strU "EAN13") code
        (barcodeIncludeParity (BArgs.positional w h p f)) = code ++ [0] := by
      simp [barcodeFrameStr, barcodeIncludeParity, hc13]
    constructor <;>
    · simp only [execR, cmdSteps, barcodeSteps, hty, hfr]
      cases hqs : isQs s.session <;>
        simp [hqs, h12, h8, runSteps, stepOut, List.append_assoc]

theorem barcode_positional_no_parity_witness :
    (execR Ksample efSample (Cmd.barcode (strU "123456789012")
      (some (strU "EAN13")) (BArgs.positional 3 none none none)) st0).2 = none
    ∧ (execR Ksample efSample (Cmd.barcode (strU "123456789012")
        (some (strU "EAN13")) (BArgs.positional 3 none none none)) st0).1.buffer
      = st0.buffer
        ++ barcodePreBytes Ksample st0.session (BArgs.positional 3 none none none)
          (strU "EAN13")
        ++ utf8Encode (strU "123456789012" ++ [0])
        ++ (if isQs st0.session then Ksample.qsBarcodeModeOff else []) :=
  (barcode_positional_no_parity 3 none none none none none none none
    (strU "123456789012") Ksample efSample st0).2.2.2.2.2 (by decide)

/-- C1 (refuting evaluation): on the QSPrinter path the payload-length
guard is `dataRaw.length < 1 && dataRaw.length > 2710`, which no length
satisfies, so `qrcode` can never throw the `InvalidArgument` error — in
particular a 0-byte payload (here the empty string) succeeds and emits the
full three-phase QSPrinter sequence instead of failing as claimed. -/
theorem qrcode_qsprinter_range_check_dead (K : Commands)
    (ef : Jstr → Jstr → List Nat) (code : Jstr) (ver : Option Int)
    (lvl : Option Jstr) (sz : Option Int) (s : PState)
    (hqs : isQs s.session = true)
    (hpx : 0 ≤ K.qsPixelDefault ∧ K.qsPixelDefault ≤ 255)
    (hvr : 0 ≤ K.qsVersionDefault ∧ K.qsVersionDefault ≤ 255)
    (hoff : K.lenOffset ≤ 65535) :
    (execR K ef (Cmd.qrcode code ver lvl sz) s).2 ≠ some JsErr.invalidArgument
    ∧ (execR K ef (Cmd.qrcode [] none none none) s).2 = none := by
  constructor
  · intro herr
    simp only [execR, cmdSteps, hqs, if_true] at herr
    rw [qrcodeQsSteps,
      if_neg (by omega :
        ¬((utf8Encode code).length < 1 ∧ (utf8Encode code).length > 2710))] at herr
    have hmem := runSteps_invalid_mem _ herr
    simp at hmem
  · have hoffInt : ((K.lenOffset : Nat) : Int) ≤ 65535 := by exact_mod_cast hoff
    simp only [execR, cmdSteps, hqs, if_true]
    rw [qrcodeQsSteps,
      if_neg (by decide :
        ¬((utf8Encode ([] : Jstr)).length < 1 ∧ (utf8Encode ([] : Jstr)).length > 2710))]
    simp [runSteps, stepOut, qsClamp, utf8Encode, utf8EncodeAux, hpx, hvr,
      hpx.1, hpx.2, hvr.1, hvr.2, hoffInt, Int.natCast_nonneg]

theorem imageLineSteps_no_fail (K : Commands) (header : List Nat) (n : Nat)
    (lines : List (List Nat)) (e : JsErr) :
    Step.fail e ∉ imageLineSteps K header n lines := by
  induction lines with
  | nil => simp [imageLineSteps]
  | cons line rest ih => simp [imageLineSteps, ih]

theorem cmdSteps_invalid_first (K : Commands) (ef : Jstr → Jstr → List Nat)
    (c : Cmd) (sess : Session)
    (h : (runSteps (cmdSteps K ef c sess)).2 = some JsErr.invalidArgument) :
    (runSteps (cmdSteps K ef c sess)).1 = [] ∧ cmdSession c sess = sess := by
  cases c with
  | print content => simp [cmdSteps, runSteps, stepOut] at h
  | text content enc => simp [cmdSteps, runSteps, stepOut] at h
  | rawBuf bs => simp [cmdSteps, runSteps, stepOut] at h
  | rawHex s2 => simp [cmdSteps, runSteps, stepOut] at h
  | setEncoding e => simp [cmdSteps, runSteps] at h
  | setModel m => simp [cmdSteps, runSteps] at h
  | tableCustom fuel data enc => simp [cmdSteps, runSteps, stepOut] at h
  | barcode code ty args =>
    refine ⟨?_, rfl⟩
    simp only [cmdSteps, barcodeSteps] at h ⊢
    by_cases hc1 : jstrOr ty (strU "EAN13") = strU "EAN13" ∧ code.length ≠ 12
    · rw [if_pos hc1]
      simp [runSteps, stepOut]
    · rw [if_neg hc1] at h ⊢
      by_cases hc2 : jstrOr ty (strU "EAN13") = strU "EAN8" ∧ code.length ≠ 7
      · rw [if_pos hc2]
        simp [runSteps, stepOut]
      · rw [if_neg hc2] at h ⊢
        exfalso
        have hmem := runSteps_invalid_mem _ h
        rcases List.mem_append.mp hmem with hm | hm
        · simp at hm
        · split at hm <;> simp at hm
  | qrcode code ver lvl sz =>
    refine ⟨?_, rfl⟩
    exfalso
    simp only [cmdSteps] at h
    by_cases hqs : isQs sess
    · rw [if_pos hqs, qrcodeQsSteps,
        if_neg (by omega :
          ¬((utf8Encode code).length < 1 ∧ (utf8Encode code).length > 2710))] at h
      have hmem := runSteps_invalid_mem _ h
      simp at hmem
    · rw [if_neg hqs] at h
      have hmem := runSteps_invalid_mem _ h
      simp [qrcodeGenericSteps] at hmem
  | image img d =>
    refine ⟨?_, rfl⟩
    cases img with
    | none => simp [cmdSteps, imageSteps, runSteps, stepOut]
    | some im =>
      exfalso
      have hmem := runSteps_invalid_mem _ h
      simp only [cmdSteps, imageSteps] at hmem
      rcases List.mem_append.mp hmem with hm | hm
      · rcases List.mem_append.mp hm with hm2 | hm2
        · simp at hm2
        · exact imageLineSteps_no_fail _ _ _ _ _ hm2
      · simp at hm
  | raster img m =>
    refine ⟨?_, rfl⟩
    cases img with
    | none => simp [cmdSteps, rasterSteps, runSteps, stepOut]
    | some im =>
      exfalso
      have hmem := runSteps_invalid_mem _ h
      simp [cmdSteps, rasterSteps] at hmem

/-- C6: whenever a builder operation throws the `InvalidArgument`-kind
validation error (wrong EAN13/EAN8 payload length, out-of-range QSPrinter
QR payload, non-`Image` value for `image`/`raster`), the command buffer
and session state are exactly what they were before the call — nothing
was appended — and the prior buffer contents can still be flushed as one
block to the adapter. -/
theorem invalidArgument_preserves_state (K : Commands)
    (ef : Jstr → Jstr → List Nat) (c : Cmd) (s : PState)
    (herr : (execR K ef c s).2 = some JsErr.invalidArgument) :
    (execR K ef c s).1 = s
    ∧ (flushP ((execR K ef c s).1)).written = s.written ++ [s.buffer]
    ∧ (flushP ((execR K ef c s).1)).buffer = [] := by
  have haux := cmdSteps_invalid_first K ef c s.session herr
  have h1 : (execR K ef c s).1 = s := by
    simp only [execR]
    rw [haux.1, haux.2]
    cases s
    simp
  refine ⟨h1, ?_, ?_⟩ <;> rw [h1]
  · rfl
  · rfl

theorem invalidArgument_preserves_state_witness :
    (execR Ksample efSample (ean13DefaultCmd (strU "1234")) st0).1 = st0
    ∧ (flushP ((execR Ksample efSample (ean13DefaultCmd (strU "1234")) st0).1)).written
      = st0.written ++ [st0.buffer] :=
  ⟨(invalidArgument_preserves_state Ksample efSample
     (ean13DefaultCmd (strU "1234")) st0 (by decide)).1,
   (invalidArgument_preserves_state Ksample efSample
     (ean13DefaultCmd (strU "1234")) st0 (by decide)).2.1⟩

theorem execR_buffer (K : Commands) (ef : Jstr → Jstr → List Nat) (c : Cmd)
    (s : PState) :
    (execR K ef c s).1.buffer = s.buffer ++ cmdBytes K ef c s.session := rfl

theorem execR_session (K : Commands) (ef : Jstr → Jstr → List Nat) (c : Cmd)
    (s : PState) :
    (execR K ef c s).1.session = cmdSession c s.session := rfl

theorem execR_written (K : Commands) (ef : Jstr → Jstr → List Nat) (c : Cmd)
    (s : PState) :
    (execR K ef c s).1.written = s.written := rfl

/-- C5: a chain of builder operations that runs without throwing, followed
by `flush`, hands the adapter exactly one block: the concatenation, in
call order, of the bytes each operation appended since the last flush —
nothing reordered, mutated, dropped, or inserted. -/
theorem flush_delivers_concatenation (K : Commands)
    (ef : Jstr → Jstr → List Nat) (ops : List Cmd) (s sFin : PState)
    (h : runCmds K ef ops s = (sFin, none)) :
    sFin.buffer = s.buffer ++ (opsBytes K ef ops s.session).flatten
    ∧ sFin.written = s.written
    ∧ (flushP sFin).written
      = s.written ++ [s.buffer ++ (opsBytes K ef ops s.session).flatten]
    ∧ (flushP sFin).buffer = [] := by
  induction ops generalizing s with
  | nil =>
    simp only [runCmds, Prod.mk.injEq] at h
    rcases h with ⟨rfl, -⟩
    simp [opsBytes, flushP]
  | cons c rest ih =>
    simp only [runCmds] at h
    cases h2 : (execR K ef c s).2 with
    | some e => rw [h2] at h; simp at h
    | none =>
      rw [h2] at h
      obtain ⟨hb, hw, -, -⟩ := ih (execR K ef c s).1 h
      rw [execR_buffer, execR_session] at hb
      rw [execR_written] at hw
      have hbuf : sFin.buffer
          = s.buffer ++ (opsBytes K ef (c :: rest) s.session).flatten := by
        rw [hb]
        simp [opsBytes, List.append_assoc]
      exact ⟨hbuf, hw, by simp [flushP, hw, hbuf], rfl⟩

theorem flush_delivers_concatenation_witness :
    (flushP (runCmds Ksample efSample
        [Cmd.print (strU "A"), Cmd.rawBuf [1, 2]] st0).1).written
      = st0.written
        ++ [st0.buffer
            ++ (opsBytes Ksample efSample
                [Cmd.print (strU "A"), Cmd.rawBuf [1, 2]] st0.session).flatten] :=
  (flush_delivers_concatenation Ksample efSample
    [Cmd.print (strU "A"), Cmd.rawBuf [1, 2]] st0
    (runCmds Ksample efSample [Cmd.print (strU "A"), Cmd.rawBuf [1, 2]] st0).1
    rfl).2.2.1

/-- C10: when some `tableCustom` cell overflows its width, the emitted
bytes are the first line encoded with the explicitly passed encoding
followed by the recursive continuation call made WITHOUT an encoding
argument; and any `tableCustom` call without an encoding argument encodes
its line with the session's current encoding.  Hence continuation lines
always use the session encoding, even when the first line used the passed
one. -/
theorem tableCustom_continuation_encoding (ef : Jstr → Jstr → List Nat)
    (K : Commands) (fuel : Nat) (sess : Session) (data : List Cell) (e : Jstr)
    (he : e ≠ []) (hen : (lineOf sess data).enabled = true) :
    tableCustomBytes ef K (fuel + 1) sess data (some e)
      = ef e ((lineOf sess data).lineStr ++ K.eol)
        ++ tableCustomBytes ef K fuel sess (lineOf sess data).secondLine none
    ∧ ∀ d2 : List Cell,
        tableCustomBytes ef K (fuel + 1) sess d2 none
          = ef sess.encoding ((lineOf sess d2).lineStr ++ K.eol)
            ++ (if (lineOf sess d2).enabled
                then tableCustomBytes ef K fuel sess (lineOf sess d2).secondLine none
                else []) := by
  constructor
  · rw [tableCustomBytes]
    simp [jstrOr, he, hen]
  · intro d2
    rw [tableCustomBytes]
    simp [jstrOr]

theorem tableCustom_continuation_encoding_witness :
    tableCustomBytes efSample Ksample 2 ⟨strU "GBK", 4, none⟩
        [⟨strU "abcdef", none, none, strU "LEFT"⟩] (some (strU "EUC"))
      = efSample (strU "EUC")
          ((lineOf ⟨strU "GBK", 4, none⟩
            [⟨strU "abcdef", none, none, strU "LEFT"⟩]).lineStr ++ Ksample.eol)
        ++ tableCustomBytes efSample Ksample 1 ⟨strU "GBK", 4, none⟩
            (lineOf ⟨strU "GBK", 4, none⟩
              [⟨strU "abcdef", none, none, strU "LEFT"⟩]).secondLine none :=
  (tableCustom_continuation_encoding efSample Ksample 1 ⟨strU "GBK", 4, none⟩
    [⟨strU "abcdef", none, none, strU "LEFT"⟩] (strU "EUC")
    (by decide)
    (by simp [lineOf, tcCell, optQTruthy]; decide)).1

theorem qrcode_qsprinter_range_check_dead_witness :
    (execR Ksample efSample (Cmd.qrcode (strU "hello") none none none) stQs).2
      ≠ some JsErr.invalidArgument
    ∧ (execR Ksample efSample (Cmd.qrcode [] none none none) stQs).2 = none :=
  qrcode_qsprinter_range_check_dead Ksample efSample (strU "hello")
    none none none stQs (by decide) (by decide) (by decide) (by decide)
